import Mathlib

/-!
Shallow embedding of `exceltopdf.py` (class `ExcelToPDFConverter` and
`batch_excel_to_pdf`), together with proofs about the claims on that code.

Cells of a spreadsheet are modelled as the strings Python's `str()` turns
them into, which is all the converter ever uses of them.  Reading a file or
a sheet can raise in Python; the model represents a raising
`pd.ExcelFile` / `pd.read_excel` call by `ExcelFile.openError` / a sheet
whose `df` is `none`.  Numeric widths are rationals (Python floats carry
exact values here: all inputs to the arithmetic are integers and one exact
division).
-/

namespace ExcelToPDF

/-- A pandas DataFrame: its column names and its rows of cells
(cells as the strings `str()` renders them to). -/
structure DataFrame where
  columns : List String
  rows : List (List String)
deriving DecidableEq, Repr

/-- One sheet of a workbook: its name, and `some` DataFrame when
`pd.read_excel` succeeds, `none` when it raises. -/
structure Sheet where
  name : String
  df : Option DataFrame
deriving DecidableEq, Repr

/-- An input path as the converter sees it: `pd.ExcelFile` either raises
(`openError`) or yields the workbook's sheets in order. -/
inductive ExcelFile
  | openError (path : String)
  | ok (path : String) (sheets : List Sheet)
deriving DecidableEq, Repr

def ExcelFile.path : ExcelFile → String
  | .openError p => p
  | .ok p _ => p

/-- `os.path.basename`: the part of the path after the last slash
(scanning the characters, restarting at each slash). -/
def basename (p : String) : String :=
  String.mk (p.data.foldl (fun acc c => if c = '/' then [] else acc ++ [c]) [])

/-- The three paragraph styles `setup_styles` installs. -/
inductive StyleName
  | title | heading | toc
deriving DecidableEq, Repr

/-- A cell handed to reportlab's `Table`: either a plain string (the data
tables) or a `Paragraph` (the table of contents). -/
inductive Cell
  | str (s : String)
  | par (text : String) (style : StyleName)
deriving DecidableEq, Repr

/-- The flowables appended to `self.elements`. -/
inductive Element
  | paragraph (text : String) (style : StyleName)
  | spacer (w h : ℚ)
  | table (data : List (List Cell)) (colWidths : List ℚ)
  | pageBreak
deriving DecidableEq, Repr

/-- One record of `self.toc_data`. -/
structure TocEntry where
  title : String
  page : Nat
  bookmark : String
deriving DecidableEq, Repr

/-- The arguments of one `canvas.addOutlineEntry(title, key, level, closed)`
call made by `add_bookmark`. -/
structure OutlineEntry where
  title : String
  key : String
  level : Nat
  closed : Bool
deriving DecidableEq, Repr

/-- The converter's mutable state: `self.elements`, `self.toc_data`,
`self.current_page`, plus the error messages printed so far. -/
structure ConvState where
  elements : List Element
  toc_data : List TocEntry
  current_page : Nat
  errors : List String
deriving DecidableEq, Repr

/-- `__init__`: empty element and toc lists, `current_page = 1`. -/
def initState : ConvState := ⟨[], [], 1, []⟩

def max_columns_per_table : Nat := 7

/-- Python `range(0, stop, step)` for `step > 0`. -/
def pyRange0 (stop step : Nat) : List Nat :=
  (List.range ((stop + step - 1) / step)).map (· * step)

/-- `df.iloc[:, i:j]`: columns `i` up to (excluding) `j`, all rows. -/
def DataFrame.ilocCols (df : DataFrame) (i j : Nat) : DataFrame :=
  ⟨(df.columns.drop i).take (j - i), df.rows.map fun r => (r.drop i).take (j - i)⟩

/-- `split_dataframe`. -/
def split_dataframe (df : DataFrame) : List DataFrame :=
  if df.columns.length > max_columns_per_table then
    (pyRange0 df.columns.length max_columns_per_table).map fun i =>
      df.ilocCols i (i + max_columns_per_table)
  else [df]

/-- `landscape(letter)[0]`: letter is (612, 792) points, landscape swaps. -/
def landscape_letter_width : ℚ := 792

/-- The default `max_width` of `process_dataframe`. -/
def default_max_width : ℚ := landscape_letter_width - 60

def min_col_width : ℚ := 50

def max_col_width : ℚ := 200

/-- `data = [df.columns.tolist()] + df.values.tolist()`. -/
def DataFrame.grid (df : DataFrame) : List (List String) := df.columns :: df.rows

/-- `max(len(str(row[col])) * 7 for row in data)`.  `data` is always
nonempty (it starts with the header row) and lengths are nonnegative, so
folding `max` from 0 agrees with Python's `max` over the rows. -/
def raw_col_width (data : List (List String)) (col : Nat) : ℚ :=
  (data.map fun row => ((row.getD col "").length : ℚ) * 7).foldl max 0

/-- The widths after the clamp `max(min_col_width, min(max_col_width, ...))`,
one per column of the grid's header row. -/
def clamped_col_widths (df : DataFrame) : List ℚ :=
  (List.range df.columns.length).map fun col =>
    max min_col_width (min max_col_width (raw_col_width df.grid col))

/-- `process_dataframe`. -/
def process_dataframe (df : DataFrame) (max_width : ℚ) :
    List (List String) × List ℚ :=
  let data := df.grid
  let col_widths := clamped_col_widths df
  let total_width := col_widths.sum
  if total_width > max_width then
    (data, col_widths.map fun w => w * (max_width / total_width))
  else
    (data, col_widths)

/-- The `Table` + `Spacer` pair appended for one split DataFrame. -/
def table_element (df : DataFrame) : List Element :=
  let pr := process_dataframe df default_max_width
  [Element.table (pr.1.map (List.map Cell.str)) pr.2, Element.spacer 1 20]

def continued_text (i n : Nat) : String :=
  "Continued (" ++ toString (i + 1) ++ "/" ++ toString n ++ ")"

/-- What the inner `for i, split_df in enumerate(split_dfs)` loop appends
for index `i` of `n` splits. -/
def table_block (n i : Nat) (df : DataFrame) : List Element :=
  (if i > 0 then [Element.paragraph (continued_text i n) StyleName.heading] else [])
    ++ table_element df

/-- Everything the enumerate loop appends over all splits. -/
def sheet_tables (dfs : List DataFrame) : List Element :=
  (dfs.enum.map fun p => table_block dfs.length p.1 p.2).flatten

/-- The invisible anchor `<a name="..."></a>` emitted before a title. -/
def anchor (bookmark : String) : String := "<a name=\"" ++ bookmark ++ "\"></a>"

def sheet_error (sheet_name file_name : String) : String :=
  "Error processing sheet " ++ sheet_name ++ " in " ++ file_name

def file_error (file_name : String) : String :=
  "Error processing file " ++ file_name

/-- The body of the `for sheet_name in excel.sheet_names` loop.  When
`pd.read_excel` raises (`sheet.df = none`) the handler prints and
continues: only `errors` changes.  Otherwise the toc entry, the sheet
header, the tables and a `PageBreak` are appended and `current_page`
is incremented. -/
def process_sheet (file_name : String) (st : ConvState) (sheet : Sheet) : ConvState :=
  match sheet.df with
  | Option.none =>
      { st with errors := st.errors ++ [sheet_error sheet.name file_name] }
  | some df =>
      let sheet_bookmark := "sheet_" ++ toString st.toc_data.length
      let st1 := { st with toc_data := st.toc_data ++
          [(⟨"    ↳ " ++ sheet.name, st.current_page, sheet_bookmark⟩ : TocEntry)] }
      let st2 := { st1 with elements := st1.elements ++
          [Element.paragraph (anchor sheet_bookmark ++ "Sheet: " ++ sheet.name)
            StyleName.heading] }
      let st3 := { st2 with elements := st2.elements ++ sheet_tables (split_dataframe df) }
      { st3 with elements := st3.elements ++ [Element.pageBreak],
                 current_page := st3.current_page + 1 }

/-- The body of the `for excel_file in excel_files` loop: the file's toc
entry and title are appended before the `try`, then either the open fails
(an error is printed, the loop continues) or every sheet is processed. -/
def process_file (st : ConvState) (f : ExcelFile) : ConvState :=
  let file_name := basename f.path
  let file_bookmark := "file_" ++ toString st.toc_data.length
  let st1 := { st with toc_data := st.toc_data ++
      [(⟨file_name, st.current_page, file_bookmark⟩ : TocEntry)] }
  let st2 := { st1 with elements := st1.elements ++
      [Element.paragraph (anchor file_bookmark ++ file_name) StyleName.title] }
  match f with
  | .openError _ => { st2 with errors := st2.errors ++ [file_error file_name] }
  | .ok _ sheets => sheets.foldl (process_sheet file_name) st2

/-- `link_text` of `create_table_of_contents`. -/
def toc_link_text (item : TocEntry) : String :=
  "<a href=\"#" ++ item.bookmark ++ "\" color=\"#2E4053\">" ++ item.title ++ "</a>"

/-- The rows of the TOC table: the header row, then one linked row per
`toc_data` item. -/
def toc_table_data (toc : List TocEntry) : List (List Cell) :=
  [Cell.par "Content" StyleName.heading, Cell.par "Page" StyleName.heading] ::
    toc.map fun item =>
      [Cell.par (toc_link_text item) StyleName.toc,
       Cell.par (toString item.page) StyleName.toc]

def toc_title_element : Element := Element.paragraph "Table of Contents" StyleName.title

/-- `create_table_of_contents`: builds the TOC table from `toc_data` and
inserts title, spacer, table and a page break at positions 0..3. -/
def create_table_of_contents (st : ConvState) : ConvState :=
  let toc_table := Element.table (toc_table_data st.toc_data) [450, 50]
  { st with elements :=
      ((((st.elements.insertIdx 0 toc_title_element).insertIdx 1
          (Element.spacer 1 30)).insertIdx 2 toc_table).insertIdx 3 Element.pageBreak) }

/-- `process_excel_files`: the file loop, then the TOC insertion (the
`doc.build` call hands layout to reportlab; its per-page callback is
modelled by `header_footer_outline` below). -/
def process_excel_files (st : ConvState) (files : List ExcelFile) : ConvState :=
  create_table_of_contents (files.foldl process_file st)

/-- `add_bookmark`: `key = "#" + name`, outline entry at level 0, open. -/
def add_bookmark (title bookmark_name : String) : OutlineEntry :=
  ⟨title, "#" ++ bookmark_name, 0, false⟩

/-- `next((item for item in self.toc_data if item['page'] == page_num), None)`. -/
def outline_entry_at (toc : List TocEntry) (page_num : Nat) : Option TocEntry :=
  toc.find? fun item => item.page == page_num

/-- What `_header_footer` registers on the page numbered `page_num`: the
outline entry of the first toc item recorded for that page, if any. -/
def header_footer_outline (toc : List TocEntry) (page_num : Nat) : Option OutlineEntry :=
  (outline_entry_at toc page_num).map fun item => add_bookmark item.title item.bookmark

/-- The suffixes `f.endswith(('.xlsx', '.xls', '.xlsm'))` accepts. -/
def excel_suffixes : List String := [".xlsx", ".xls", ".xlsm"]

def isExcelName (f : String) : Bool := excel_suffixes.any fun suf => f.endsWith suf

/-- `os.path.join` for the shapes that occur here (second argument a plain
directory entry). -/
def path_join (d f : String) : String :=
  if f.startsWith "/" then f
  else if d = "" || d.endsWith "/" then d ++ f
  else d ++ "/" ++ f

/-- What `batch_excel_to_pdf` does with a directory listing: either the
early return (no converter is constructed, nothing written) or the list of
joined paths handed to a fresh converter. -/
inductive BatchResult
  | noFiles (message : String)
  | processed (excel_files : List String) (output_pdf : String)
deriving DecidableEq, Repr

/-- `batch_excel_to_pdf`, with `listing` standing for
`os.listdir(input_directory)`. -/
def batch_excel_to_pdf (input_directory : String) (listing : List String)
    (output_pdf : String) : BatchResult :=
  let excel_files := (listing.filter isExcelName).map (path_join input_directory)
  if excel_files.isEmpty then
    BatchResult.noFiles ("No Excel files found in " ++ input_directory)
  else
    BatchResult.processed excel_files output_pdf

/-! Specification-side views of the run, written by recursion over the
input so the claims can speak about positions, counters and sections
directly.  They are related to the fold above by the simulation lemmas
further down. -/

/-- A sheet is processed successfully exactly when `pd.read_excel` returned. -/
def Sheet.success (sh : Sheet) : Bool := sh.df.isSome

/-- How many sheets of the file are processed successfully. -/
def ExcelFile.successCount : ExcelFile → Nat
  | .openError _ => 0
  | .ok _ sheets => (sheets.filter Sheet.success).length

def totalSuccesses (files : List ExcelFile) : Nat :=
  (files.map ExcelFile.successCount).sum

/-- The elements one sheet contributes, given the length `toc_data` has
when its bookmark name is minted. -/
def sheet_section (tocLen : Nat) (sh : Sheet) : List Element :=
  match sh.df with
  | Option.none => []
  | some df =>
      Element.paragraph (anchor ("sheet_" ++ toString tocLen) ++ "Sheet: " ++ sh.name)
          StyleName.heading
        :: (sheet_tables (split_dataframe df) ++ [Element.pageBreak])

/-- The elements a run of sheets contributes; the toc length grows by one
per successful sheet. -/
def sheets_sections (tocLen : Nat) : List Sheet → List Element
  | [] => []
  | sh :: rest =>
      sheet_section tocLen sh
        ++ sheets_sections (tocLen + (if sh.success then 1 else 0)) rest

/-- The section one file contributes: its anchored title, then its sheets
(none when opening the file failed). -/
def file_section (tocLen : Nat) (f : ExcelFile) : List Element :=
  Element.paragraph (anchor ("file_" ++ toString tocLen) ++ basename f.path) StyleName.title
    :: (match f with
        | .openError _ => []
        | .ok _ sheets => sheets_sections (tocLen + 1) sheets)

/-- All sections of the run, files in order. -/
def files_sections (tocLen : Nat) : List ExcelFile → List Element
  | [] => []
  | f :: rest => file_section tocLen f ++ files_sections (tocLen + 1 + f.successCount) rest

/-- The toc entries a run of sheets contributes, given the toc length and
the value of `current_page` on entry. -/
def sheets_toc (tocLen page : Nat) : List Sheet → List TocEntry
  | [] => []
  | sh :: rest =>
      match sh.df with
      | Option.none => sheets_toc tocLen page rest
      | some _ =>
          ⟨"    ↳ " ++ sh.name, page, "sheet_" ++ toString tocLen⟩
            :: sheets_toc (tocLen + 1) (page + 1) rest

/-- The toc entries one file contributes: the file entry, then its sheets. -/
def file_toc (tocLen page : Nat) (f : ExcelFile) : List TocEntry :=
  ⟨basename f.path, page, "file_" ++ toString tocLen⟩
    :: (match f with
        | .openError _ => []
        | .ok _ sheets => sheets_toc (tocLen + 1) page sheets)

/-- The whole toc of a run. -/
def files_toc (tocLen page : Nat) : List ExcelFile → List TocEntry
  | [] => []
  | f :: rest =>
      file_toc tocLen page f
        ++ files_toc (tocLen + 1 + f.successCount) (page + f.successCount) rest

/-- Modelled from the claim's words: the number of sheets successfully
processed before each toc entry is appended, one value per entry in
append order, starting from a running counter `c` (sheet case). -/
def succBeforeSheets (c : Nat) : List Sheet → List Nat
  | [] => []
  | sh :: rest =>
      match sh.df with
      | Option.none => succBeforeSheets c rest
      | some _ => c :: succBeforeSheets (c + 1) rest

/-- Modelled from the claim's words: the number of sheets successfully
processed before each toc entry is appended, one value per entry in
append order (file case). -/
def succBeforeFiles (c : Nat) : List ExcelFile → List Nat
  | [] => []
  | f :: rest =>
      (c :: (match f with
             | ExcelFile.openError _ => []
             | ExcelFile.ok _ sheets => succBeforeSheets c sheets))
        ++ succBeforeFiles (c + f.successCount) rest

/-- The error messages a run of sheets prints. -/
def sheets_errors (fn : String) : List Sheet → List String
  | [] => []
  | sh :: rest =>
      (match sh.df with
       | Option.none => [sheet_error sh.name fn]
       | some _ => []) ++ sheets_errors fn rest

/-- The error messages one file prints. -/
def file_errors (f : ExcelFile) : List String :=
  match f with
  | .openError p => [file_error (basename p)]
  | .ok p sheets => sheets_errors (basename p) sheets

def files_errors : List ExcelFile → List String
  | [] => []
  | f :: rest => file_errors f ++ files_errors rest

def Element.isPageBreak : Element → Bool
  | .pageBreak => true
  | _ => false

/-- A lower bound for the page an element can appear on: reportlab starts
on page 1 and every `PageBreak` flowable ends the current page, so the
element at index `i` appears no earlier than one plus the number of page
breaks before it. -/
def min_start_page (elems : List Element) (i : Nat) : Nat :=
  1 + ((elems.take i).filter Element.isPageBreak).length

/-- An abstract pagination of the element list, assigning each element
index the page it is laid out on.  Any layout reportlab can produce
satisfies these three facts: the document starts on page 1, later elements
are never on earlier pages, and a `PageBreak` forces the next element onto
a later page. -/
structure Paginates (elems : List Element) (pg : Nat → Nat) : Prop where
  first_page : pg 0 = 1
  mono : ∀ i j, i ≤ j → pg i ≤ pg j
  break_next : ∀ i, (h : i < elems.length) → (elems.get ⟨i, h⟩).isPageBreak = true →
    pg i < pg (i + 1)

/-- A tiny readable sheet used by the concrete counterexamples. -/
def dfS : DataFrame := ⟨["A"], [["1"]]⟩

/-- One file, one successful sheet. -/
def oneFileInput : List ExcelFile := [ExcelFile.ok "a.xlsx" [⟨"S", some dfS⟩]]

/-- One file, two successful sheets. -/
def twoSheetInput : List ExcelFile :=
  [ExcelFile.ok "a.xlsx" [⟨"S1", some dfS⟩, ⟨"S2", some dfS⟩]]

/-- One file with a single sheet named Data. -/
def oneSheetNamed : List ExcelFile := [ExcelFile.ok "data.xlsx" [⟨"Data", some dfS⟩]]

/-! Simulation lemmas: the stateful fold equals the recursive views. -/

theorem process_sheet_none (fn : String) (st : ConvState) (name : String) :
    process_sheet fn st ⟨name, Option.none⟩ =
      { st with errors := st.errors ++ [sheet_error name fn] } := rfl

theorem process_sheet_some (fn : String) (st : ConvState) (name : String) (df : DataFrame) :
    process_sheet fn st ⟨name, some df⟩ =
      { elements := st.elements ++ sheet_section st.toc_data.length ⟨name, some df⟩,
        toc_data := st.toc_data ++
          [⟨"    ↳ " ++ name, st.current_page, "sheet_" ++ toString st.toc_data.length⟩],
        current_page := st.current_page + 1,
        errors := st.errors } := by
  simp [process_sheet, sheet_section, List.append_assoc]

theorem foldl_process_sheet (fn : String) (sheets : List Sheet) (st : ConvState) :
    sheets.foldl (process_sheet fn) st =
      { elements := st.elements ++ sheets_sections st.toc_data.length sheets,
        toc_data := st.toc_data ++ sheets_toc st.toc_data.length st.current_page sheets,
        current_page := st.current_page + (sheets.filter Sheet.success).length,
        errors := st.errors ++ sheets_errors fn sheets } := by
  induction sheets generalizing st with
  | nil => simp [sheets_sections, sheets_toc, sheets_errors]
  | cons sh rest ih =>
      obtain ⟨name, df⟩ := sh
      cases df with
      | none =>
          rw [List.foldl_cons, process_sheet_none, ih]
          simp [sheets_sections, sheets_toc, sheets_errors, sheet_section,
            Sheet.success, List.append_assoc]
      | some d =>
          rw [List.foldl_cons, process_sheet_some, ih]
          simp [sheets_sections, sheets_toc, sheets_errors, sheet_section,
            Sheet.success, List.append_assoc, List.length_append,
            Nat.add_assoc, Nat.add_comm 1]

theorem process_file_eq (st : ConvState) (f : ExcelFile) :
    process_file st f =
      { elements := st.elements ++ file_section st.toc_data.length f,
        toc_data := st.toc_data ++ file_toc st.toc_data.length st.current_page f,
        current_page := st.current_page + f.successCount,
        errors := st.errors ++ file_errors f } := by
  cases f with
  | openError p =>
      simp [process_file, file_section, file_toc, file_errors,
        ExcelFile.successCount, ExcelFile.path, sheets_sections]
  | ok p sheets =>
      show (sheets.foldl (process_sheet (basename p)) _) = _
      rw [foldl_process_sheet]
      simp [file_section, file_toc, file_errors, ExcelFile.successCount,
        ExcelFile.path, List.append_assoc, List.length_append]

theorem sheets_toc_length (tocLen page : Nat) (ss : List Sheet) :
    (sheets_toc tocLen page ss).length = (ss.filter Sheet.success).length := by
  induction ss generalizing tocLen page with
  | nil => simp [sheets_toc]
  | cons sh rest ih =>
      obtain ⟨name, df⟩ := sh
      cases df with
      | none => simp [sheets_toc, Sheet.success, ih]
      | some d => simp [sheets_toc, Sheet.success, ih]

theorem file_toc_length (tocLen page : Nat) (f : ExcelFile) :
    (file_toc tocLen page f).length = 1 + f.successCount := by
  cases f with
  | openError p => simp [file_toc, ExcelFile.successCount]
  | ok p sheets =>
      simp [file_toc, ExcelFile.successCount, sheets_toc_length, Nat.add_comm]

theorem foldl_process_file (files : List ExcelFile) (st : ConvState) :
    files.foldl process_file st =
      { elements := st.elements ++ files_sections st.toc_data.length files,
        toc_data := st.toc_data ++ files_toc st.toc_data.length st.current_page files,
        current_page := st.current_page + totalSuccesses files,
        errors := st.errors ++ files_errors files } := by
  induction files generalizing st with
  | nil => simp [files_sections, files_toc, files_errors, totalSuccesses]
  | cons f rest ih =>
      rw [List.foldl_cons, process_file_eq, ih]
      simp [files_sections, files_toc, files_errors, totalSuccesses,
        List.append_assoc, List.length_append, file_toc_length,
        Nat.add_assoc, Nat.add_comm 1]

theorem insertIdx_chain (l : List Element) (a b c d : Element) :
    ((((l.insertIdx 0 a).insertIdx 1 b).insertIdx 2 c).insertIdx 3 d) =
      a :: b :: c :: d :: l := rfl

theorem process_excel_files_eq (files : List ExcelFile) :
    process_excel_files initState files =
      { elements :=
          toc_title_element :: Element.spacer 1 30
            :: Element.table (toc_table_data (files_toc 0 1 files)) [450, 50]
            :: Element.pageBreak :: files_sections 0 files,
        toc_data := files_toc 0 1 files,
        current_page := 1 + totalSuccesses files,
        errors := files_errors files } := by
  show create_table_of_contents (files.foldl process_file initState) = _
  rw [foldl_process_file]
  simp [create_table_of_contents, initState, insertIdx_chain]

/-! Skipping a failing sheet leaves everything except the error log unchanged. -/

theorem sheets_skip_failure (name : String) (pre post : List Sheet) (tocLen page : Nat) :
    sheets_sections tocLen (pre ++ ⟨name, Option.none⟩ :: post) =
      sheets_sections tocLen (pre ++ post)
    ∧ sheets_toc tocLen page (pre ++ ⟨name, Option.none⟩ :: post) =
      sheets_toc tocLen page (pre ++ post)
    ∧ ((pre ++ ⟨name, Option.none⟩ :: post).filter Sheet.success).length =
      ((pre ++ post).filter Sheet.success).length := by
  induction pre generalizing tocLen page with
  | nil =>
      simp [sheets_sections, sheets_toc, sheet_section, Sheet.success]
  | cons sh rest ih =>
      obtain ⟨n, d⟩ := sh
      cases d with
      | none =>
          simpa [sheets_sections, sheets_toc, Sheet.success, sheet_section]
            using ih tocLen page
      | some dfv =>
          have h := ih (tocLen + 1) (page + 1)
          simp [sheets_sections, sheets_toc, Sheet.success, sheet_section] at h ⊢
          exact h

/-! Every toc entry's bookmark anchor is emitted in its section's title
paragraph, and every toc entry has its linked row in the TOC table. -/

theorem sheets_toc_anchor (tocLen page : Nat) (ss : List Sheet) :
    ∀ e ∈ sheets_toc tocLen page ss, ∃ rest,
      Element.paragraph (anchor e.bookmark ++ rest) StyleName.heading
        ∈ sheets_sections tocLen ss := by
  induction ss generalizing tocLen page with
  | nil => simp [sheets_toc]
  | cons sh rest ih =>
      obtain ⟨n, d⟩ := sh
      cases d with
      | none =>
          intro e he
          simp only [sheets_toc] at he
          obtain ⟨r, hr⟩ := ih tocLen page e he
          exact ⟨r, by simpa [sheets_sections, sheet_section, Sheet.success] using hr⟩
      | some dfv =>
          intro e he
          simp only [sheets_toc, List.mem_cons] at he
          rcases he with rfl | he
          · refine ⟨"Sheet: " ++ n, ?_⟩
            simp [sheets_sections, sheet_section, Sheet.success, String.append_assoc]
          · obtain ⟨r, hr⟩ := ih (tocLen + 1) (page + 1) e he
            refine ⟨r, ?_⟩
            simp only [sheets_sections, sheet_section, Sheet.success, Option.isSome_some,
              if_true, List.cons_append, List.mem_cons, List.mem_append]
            tauto

theorem files_toc_anchor (tocLen page : Nat) (files : List ExcelFile) :
    ∀ e ∈ files_toc tocLen page files, ∃ rest sty,
      Element.paragraph (anchor e.bookmark ++ rest) sty ∈ files_sections tocLen files := by
  induction files generalizing tocLen page with
  | nil => simp [files_toc]
  | cons f rest ih =>
      intro e he
      simp only [files_toc, List.mem_append] at he
      rcases he with he | he
      · simp only [file_toc, List.mem_cons] at he
        rcases he with rfl | he
        · exact ⟨basename f.path, StyleName.title, by
            simp [files_sections, file_section]⟩
        · cases f with
          | openError p => simp at he
          | ok p sheets =>
              obtain ⟨r, hr⟩ := sheets_toc_anchor (tocLen + 1) page sheets e he
              refine ⟨r, StyleName.heading, ?_⟩
              simp only [files_sections, file_section, List.mem_append, List.mem_cons]
              exact Or.inl (Or.inr hr)
      · obtain ⟨r, sty, hr⟩ := ih (tocLen + 1 + f.successCount) (page + f.successCount) e he
        exact ⟨r, sty, by
          simp only [files_sections, List.mem_append]
          exact Or.inr hr⟩

theorem toc_row_mem (toc : List TocEntry) :
    ∀ e ∈ toc,
      [Cell.par (toc_link_text e) StyleName.toc, Cell.par (toString e.page) StyleName.toc]
        ∈ toc_table_data toc := by
  intro e he
  simp only [toc_table_data, List.mem_cons]
  exact Or.inr (List.mem_map_of_mem _ he)

/-! Facts about the `next(...)` lookup `_header_footer` performs. -/

theorem outline_entry_at_page (toc : List TocEntry) (p : Nat) (e : TocEntry)
    (h : outline_entry_at toc p = some e) : e ∈ toc ∧ e.page = p := by
  refine ⟨List.mem_of_find?_eq_some h, ?_⟩
  have := List.find?_some h
  simpa using this

/-! Pagination bounds. -/

theorem min_start_page_zero (elems : List Element) : min_start_page elems 0 = 1 := by
  simp [min_start_page]

theorem min_start_page_mono (elems : List Element) :
    ∀ i j, i ≤ j → min_start_page elems i ≤ min_start_page elems j := by
  intro i j hij
  have hsub : (elems.take i).Sublist (elems.take j) := by
    have : elems.take i = (elems.take j).take i := by
      rw [List.take_take, Nat.min_eq_left hij]
    rw [this]
    exact List.take_sublist _ _
  exact Nat.add_le_add_left (List.Sublist.length_le (List.Sublist.filter _ hsub)) 1

theorem min_start_page_succ (elems : List Element) (i : Nat) (h : i < elems.length) :
    min_start_page elems (i + 1) =
      min_start_page elems i + (if (elems.get ⟨i, h⟩).isPageBreak then 1 else 0) := by
  unfold min_start_page
  rw [List.take_succ, List.getElem?_eq_getElem h]
  simp only [Option.toList_some, List.filter_append, List.length_append,
    List.filter_cons, List.filter_nil, List.get_eq_getElem]
  by_cases hb : elems[i].isPageBreak
  · rw [if_pos hb, if_pos hb]
    simp only [List.length_cons, List.length_nil]
    omega
  · rw [if_neg hb, if_neg hb]
    simp only [List.length_nil]
    omega

theorem min_start_page_paginates (elems : List Element) :
    Paginates elems (min_start_page elems) := by
  refine ⟨min_start_page_zero elems, min_start_page_mono elems, ?_⟩
  intro i h hb
  rw [min_start_page_succ elems i h, hb]
  simp

theorem paginates_lower_bound (elems : List Element) (pg : Nat → Nat)
    (h : Paginates elems pg) : ∀ i, i ≤ elems.length → min_start_page elems i ≤ pg i := by
  intro i
  induction i with
  | zero => intro _; rw [min_start_page_zero, h.first_page]
  | succ i ih =>
      intro hi
      have hlt : i < elems.length := Nat.lt_of_succ_le hi
      rw [min_start_page_succ elems i hlt]
      by_cases hb : (elems.get ⟨i, hlt⟩).isPageBreak
      · have h1 := h.break_next i hlt hb
        have h2 := ih (Nat.le_of_lt hlt)
        simp only [hb, if_true]
        omega
      · have h1 := h.mono i (i + 1) (Nat.le_succ i)
        have h2 := ih (Nat.le_of_lt hlt)
        rw [if_neg hb]
        omega

/-! Chunking facts behind `split_dataframe`. -/

theorem chunks7_aux {α : Type} :
    ∀ (m : Nat) (l : List α), (l.length + 6) / 7 = m →
      ((List.range m).map fun j => (l.drop (j * 7)).take 7).flatten = l := by
  intro m
  induction m with
  | zero =>
      intro l hl
      have h0 : l.length = 0 := by omega
      have : l = [] := List.eq_nil_of_length_eq_zero h0
      subst this
      simp
  | succ m ih =>
      intro l hl
      rw [List.range_succ_eq_map, List.map_cons, List.flatten_cons, List.map_map]
      have hrec : ((List.range m).map fun j => ((l.drop 7).drop (j * 7)).take 7).flatten
          = l.drop 7 := by
        apply ih
        have hdl : (l.drop 7).length = l.length - 7 := by simp
        omega
      have hcomp : ((List.range m).map ((fun j => (l.drop (j * 7)).take 7) ∘ Nat.succ))
          = (List.range m).map fun j => ((l.drop 7).drop (j * 7)).take 7 := by
        apply List.map_congr_left
        intro j _
        simp only [Function.comp_apply]
        rw [List.drop_drop]
        have : Nat.succ j * 7 = 7 + j * 7 := by omega
        rw [this]
      rw [hcomp, hrec]
      simp

theorem pyRange0_chunks_flatten {α : Type} (l : List α) :
    ((pyRange0 l.length 7).map fun i => (l.drop i).take 7).flatten = l := by
  have : ((pyRange0 l.length 7).map fun i => (l.drop i).take 7)
      = (List.range ((l.length + 6) / 7)).map fun j => (l.drop (j * 7)).take 7 := by
    rw [pyRange0, List.map_map]
    rfl
  rw [this]
  exact chunks7_aux _ l rfl

theorem chunk_take_length_exact {α : Type} (l : List α) (j : Nat)
    (h : (j + 1) * 7 ≤ l.length) : ((l.drop (j * 7)).take 7).length = 7 := by
  simp only [List.length_take, List.length_drop]
  omega

/-! The pages recorded in the toc follow the running success counter. -/

theorem sheets_toc_pages (ss : List Sheet) :
    ∀ (tocLen c : Nat), (sheets_toc tocLen (c + 1) ss).map TocEntry.page =
      (succBeforeSheets c ss).map (fun n => n + 1) := by
  induction ss with
  | nil => intro _ _; simp [sheets_toc, succBeforeSheets]
  | cons sh rest ih =>
      intro tocLen c
      obtain ⟨n, d⟩ := sh
      cases d with
      | none => simpa [sheets_toc, succBeforeSheets] using ih tocLen c
      | some dfv =>
          simp only [sheets_toc, succBeforeSheets, List.map_cons]
          rw [ih (tocLen + 1) (c + 1)]

theorem files_toc_pages (files : List ExcelFile) :
    ∀ (tocLen c : Nat), (files_toc tocLen (c + 1) files).map TocEntry.page =
      (succBeforeFiles c files).map (fun n => n + 1) := by
  induction files with
  | nil => intro _ _; simp [files_toc, succBeforeFiles]
  | cons f rest ih =>
      intro tocLen c
      simp only [files_toc, succBeforeFiles, List.map_append, List.map_cons, file_toc]
      have hmid : ∀ sheets, (sheets_toc (tocLen + 1) (c + 1) sheets).map TocEntry.page =
          (succBeforeSheets c sheets).map (fun n => n + 1) :=
        fun sheets => sheets_toc_pages sheets (tocLen + 1) c
      have htail : (files_toc (tocLen + 1 + f.successCount) (c + 1 + f.successCount) rest).map
            TocEntry.page = (succBeforeFiles (c + f.successCount) rest).map (fun n => n + 1) := by
        have := ih (tocLen + 1 + f.successCount) (c + f.successCount)
        rwa [show c + f.successCount + 1 = c + 1 + f.successCount by omega] at this
      cases f with
      | openError p => simpa using htail
      | ok p sheets =>
          simp only [List.cons_append, List.map_cons]
          rw [hmid sheets, htail]

/-! Every input file's titled section appears in the rendered sections. -/

theorem file_title_in_sections (files : List ExcelFile) :
    ∀ tocLen, ∀ f ∈ files, ∃ n : Nat,
      Element.paragraph (anchor ("file_" ++ toString n) ++ basename f.path) StyleName.title
        ∈ files_sections tocLen files := by
  induction files with
  | nil => intro _ f hf; exact absurd hf (List.not_mem_nil f)
  | cons g rest ih =>
      intro tocLen f hf
      rcases List.mem_cons.mp hf with rfl | hf
      · exact ⟨tocLen, by simp [files_sections, file_section]⟩
      · obtain ⟨n, hn⟩ := ih (tocLen + 1 + g.successCount) f hf
        refine ⟨n, ?_⟩
        simp only [files_sections, List.mem_append]
        exact Or.inr hn

/-! The `next(...)` lookup returns the first toc item of a page, so an
item preceded by one with the same page value is never returned. -/

theorem outline_entry_at_first (toc : List TocEntry) (p : Nat) (it : TocEntry)
    (h : outline_entry_at toc p = some it) :
    ∃ pre post, toc = pre ++ it :: post ∧ ∀ x ∈ pre, x.page ≠ p := by
  induction toc with
  | nil => simp [outline_entry_at] at h
  | cons a rest ih =>
      by_cases ha : (a.page == p) = true
      · rw [outline_entry_at, List.find?_cons_of_pos] at h
        · obtain rfl : a = it := by injection h
          exact ⟨[], rest, rfl, by simp⟩
        · exact ha
      · rw [outline_entry_at, List.find?_cons_of_neg] at h
        swap
        · exact ha
        obtain ⟨pre, post, hsplit, hpre⟩ := ih h
        refine ⟨a :: pre, post, by rw [hsplit]; rfl, ?_⟩
        intro x hx
        rcases List.mem_cons.mp hx with rfl | hx
        · simpa using ha
        · exact hpre x hx

/-! Claim theorems. -/

/-- C1: for every list of input files, each file (and each successfully
read sheet within it) is rendered as a section of the element list, in
order, and the table of contents generated after the loop ends up at the
front: TOC title, spacer, TOC table (built from the toc data collected
after all sections were appended) and a page break occupy positions 0
through 3, followed by all the sections. -/
theorem claim1_toc_inserted_before_sections (files : List ExcelFile) :
    (process_excel_files initState files).elements =
      toc_title_element :: Element.spacer 1 30
        :: Element.table (toc_table_data ((files.foldl process_file initState).toc_data))
            [450, 50]
        :: Element.pageBreak :: files_sections 0 files := by
  rw [process_excel_files_eq, foldl_process_file]
  simp [initState]

/-- C2 counterexample: for input data.xlsx with one successfully read
sheet named Data, the sheet's toc entry is titled "    ↳ Data" — the sheet
name with an indentation-arrow prefix — not the bare sheet name "Data"
that the claim states. -/
theorem claim2_counterexample :
    (process_excel_files initState oneSheetNamed).toc_data =
      [⟨"data.xlsx", 1, "file_0"⟩, ⟨"    ↳ Data", 1, "sheet_1"⟩]
    ∧ ("    ↳ Data" : String) ≠ "Data" :=
  ⟨by rfl, by decide⟩

/-- C2 amended: the toc contains, in processing order, one entry per input
file titled with the file's base name, followed immediately by one entry
per successfully read sheet of that file titled with the sheet's name
prefixed by "    ↳ ", in the workbook's sheet order (`files_toc` spells
out exactly these titles and this order). -/
theorem claim2_amended_toc_titles (files : List ExcelFile) :
    (process_excel_files initState files).toc_data = files_toc 0 1 files := by
  rw [process_excel_files_eq]

/-- C5: a sheet whose read raises only appends an error message — the
elements, toc data and page counter come out exactly as if that sheet were
absent — and a file whose open raises appends only its toc entry, its
title element and an error message; folds over lists containing them
continue with the remaining sheets and files. -/
theorem claim5_errors_skip_and_continue :
    (∀ fn name st, process_sheet fn st ⟨name, Option.none⟩ =
        { st with errors := st.errors ++ [sheet_error name fn] })
    ∧ (∀ fn name st (pre post : List Sheet),
        (((pre ++ ⟨name, Option.none⟩ :: post).foldl (process_sheet fn) st).elements =
            ((pre ++ post).foldl (process_sheet fn) st).elements)
        ∧ (((pre ++ ⟨name, Option.none⟩ :: post).foldl (process_sheet fn) st).toc_data =
            ((pre ++ post).foldl (process_sheet fn) st).toc_data)
        ∧ (((pre ++ ⟨name, Option.none⟩ :: post).foldl (process_sheet fn) st).current_page =
            ((pre ++ post).foldl (process_sheet fn) st).current_page))
    ∧ (∀ p st, process_file st (ExcelFile.openError p) =
        { st with
          elements := st.elements ++
            [Element.paragraph (anchor ("file_" ++ toString st.toc_data.length)
              ++ basename p) StyleName.title],
          toc_data := st.toc_data ++
            [⟨basename p, st.current_page, "file_" ++ toString st.toc_data.length⟩],
          errors := st.errors ++ [file_error (basename p)] })
    ∧ (∀ (fs gs : List ExcelFile) st,
        (fs ++ gs).foldl process_file st = gs.foldl process_file (fs.foldl process_file st)) := by
  refine ⟨fun fn name st => rfl, ?_, ?_, fun fs gs st => by rw [List.foldl_append]⟩
  · intro fn name st pre post
    rw [foldl_process_sheet, foldl_process_sheet]
    obtain ⟨h1, h2, h3⟩ := sheets_skip_failure name pre post st.toc_data.length st.current_page
    exact ⟨by rw [h1], by rw [h2], by rw [h3]⟩
  · intro p st
    rw [process_file_eq]
    simp [file_section, file_toc, file_errors, ExcelFile.successCount, ExcelFile.path]

/-- C6: `current_page` starts at 1, the run increments it exactly once per
successfully processed sheet, and every toc entry (file or sheet) records
as its page the counter's value when it is appended, i.e. one plus the
number of sheets successfully processed before it (the per-entry counts in
append order are `succBeforeFiles 0 files`). -/
theorem claim6_running_page_counter (files : List ExcelFile) :
    initState.current_page = 1
    ∧ (process_excel_files initState files).current_page = 1 + totalSuccesses files
    ∧ ((process_excel_files initState files).toc_data.map TocEntry.page =
        (succBeforeFiles 0 files).map (fun n => n + 1)) := by
  refine ⟨rfl, by rw [process_excel_files_eq], ?_⟩
  rw [process_excel_files_eq]
  exact files_toc_pages files 0 0

/-- C3 (code bug): the claim that each toc entry's recorded page equals the
page its section starts on fails.  For the single input a.xlsx with one
successful sheet, both toc entries record page 1, and element 4 of the
final list is the file's title paragraph; but the four TOC elements sit at
positions 0..3 and the TOC block ends with a PageBreak, so under any
pagination `pg` consistent with reportlab's layout the title is laid out
on page 2 or later.  `current_page` never accounts for the pages the TOC
itself occupies (nor for sheets overflowing one page). -/
theorem claim3_toc_page_numbers_wrong (pg : Nat → Nat)
    (h : Paginates (process_excel_files initState oneFileInput).elements pg) :
    ((process_excel_files initState oneFileInput).toc_data.map TocEntry.page = [1, 1])
    ∧ (process_excel_files initState oneFileInput).elements.getD 4 Element.pageBreak
        = Element.paragraph (anchor "file_0" ++ "a.xlsx") StyleName.title
    ∧ 2 ≤ pg 4 := by
  refine ⟨by rfl, by rfl, ?_⟩
  have h4 : min_start_page (process_excel_files initState oneFileInput).elements 4 = 2 := by
    rfl
  have hlen : (process_excel_files initState oneFileInput).elements.length = 9 := by rfl
  have hle := paginates_lower_bound _ pg h 4 (by rw [hlen]; omega)
  omega

/-- C3 witness: the minimal pagination (one plus the number of page breaks
before each element) satisfies the pagination model, and under it the first
section's title element indeed sits on page 2 while its toc entry records
page 1. -/
theorem claim3_toc_page_numbers_wrong_witness :
    ((process_excel_files initState oneFileInput).toc_data.map TocEntry.page = [1, 1])
    ∧ (process_excel_files initState oneFileInput).elements.getD 4 Element.pageBreak
        = Element.paragraph (anchor "file_0" ++ "a.xlsx") StyleName.title
    ∧ 2 ≤ min_start_page (process_excel_files initState oneFileInput).elements 4 :=
  claim3_toc_page_numbers_wrong
    (min_start_page (process_excel_files initState oneFileInput).elements)
    (min_start_page_paginates _)

/-- C4 counterexample: with one file of two successful sheets, the file
entry and the first sheet entry both record page 1, and `_header_footer`
registers only the first toc item whose page matches the canvas page; so
no page of the built document ever registers the first sheet's outline
entry — that section gets no PDF outline (bookmark) entry, refuting "a PDF
outline entry is registered for every section". -/
theorem claim4_counterexample :
    (process_excel_files initState twoSheetInput).toc_data =
      [⟨"a.xlsx", 1, "file_0"⟩, ⟨"    ↳ S1", 1, "sheet_1"⟩, ⟨"    ↳ S2", 2, "sheet_2"⟩]
    ∧ ¬ ∃ p, header_footer_outline (process_excel_files initState twoSheetInput).toc_data p
        = some (add_bookmark "    ↳ S1" "sheet_1") := by
  have htoc : (process_excel_files initState twoSheetInput).toc_data =
      [⟨"a.xlsx", 1, "file_0"⟩, ⟨"    ↳ S1", 1, "sheet_1"⟩, ⟨"    ↳ S2", 2, "sheet_2"⟩] := by
    rfl
  refine ⟨htoc, ?_⟩
  rintro ⟨p, hp⟩
  rw [htoc, header_footer_outline] at hp
  obtain ⟨e, he, hfe⟩ := Option.map_eq_some'.mp hp
  obtain ⟨hmem, hpage⟩ := outline_entry_at_page _ _ _ he
  simp only [List.mem_cons, List.not_mem_nil, or_false] at hmem
  rcases hmem with rfl | rfl | rfl
  · exact absurd hfe (by decide)
  · rw [show p = 1 from hpage.symm] at he
    exact absurd he (by decide)
  · exact absurd hfe (by decide)

/-- C4 amended: every section's toc row carries a hyperlink to the anchor
name emitted in that section's title paragraph (and every toc entry has
its linked row in the TOC table); but an outline entry is registered only
for the FIRST toc entry recorded with a given page number — a section
preceded by one with the same recorded page gets no outline entry. -/
theorem claim4_links_and_first_only_outline :
    (∀ files, ∀ e ∈ (process_excel_files initState files).toc_data,
        ([Cell.par (toc_link_text e) StyleName.toc,
          Cell.par (toString e.page) StyleName.toc]
            ∈ toc_table_data (process_excel_files initState files).toc_data)
        ∧ ∃ rest sty, Element.paragraph (anchor e.bookmark ++ rest) sty
            ∈ (process_excel_files initState files).elements)
    ∧ (∀ toc p it, outline_entry_at toc p = some it →
        it.page = p ∧ ∃ pre post, toc = pre ++ it :: post ∧ ∀ x ∈ pre, x.page ≠ p) := by
  constructor
  · intro files e he
    rw [process_excel_files_eq] at he ⊢
    refine ⟨toc_row_mem _ e he, ?_⟩
    obtain ⟨rest, sty, hmem⟩ := files_toc_anchor 0 1 files e he
    refine ⟨rest, sty, ?_⟩
    simp only [List.mem_cons]
    exact Or.inr (Or.inr (Or.inr (Or.inr hmem)))
  · intro toc p it h
    exact ⟨(outline_entry_at_page toc p it h).2, outline_entry_at_first toc p it h⟩

/-- C7 counterexample: every outline entry `add_bookmark` registers is at
level 0.  For one file with two sheets, the entry registered on page 1 is
the file's and the one on page 2 is a sheet's, and both have level 0: the
sheet is not nested beneath the file, so the outline does not mirror the
file/sheet hierarchy as a tree. -/
theorem claim7_counterexample :
    header_footer_outline (process_excel_files initState twoSheetInput).toc_data 1 =
      some ⟨"a.xlsx", "#file_0", 0, false⟩
    ∧ header_footer_outline (process_excel_files initState twoSheetInput).toc_data 2 =
      some ⟨"    ↳ S2", "#sheet_2", 0, false⟩
    ∧ (⟨"    ↳ S2", "#sheet_2", 0, false⟩ : OutlineEntry).level =
      (⟨"a.xlsx", "#file_0", 0, false⟩ : OutlineEntry).level :=
  ⟨by rfl, by rfl, rfl⟩

/-- C7 amended: all input files are rendered into the single document the
converter builds at `output_pdf` — every input file's titled section is in
the one element list — but every outline entry is registered at level 0:
the outline is flat, sheets are not nested beneath their file. -/
theorem claim7_single_output_flat_outline :
    (∀ title bm, (add_bookmark title bm).level = 0)
    ∧ (∀ files, ∀ f ∈ files, ∃ n : Nat,
        Element.paragraph (anchor ("file_" ++ toString n) ++ basename f.path)
            StyleName.title
          ∈ (process_excel_files initState files).elements) := by
  refine ⟨fun _ _ => rfl, ?_⟩
  intro files f hf
  obtain ⟨n, hn⟩ := file_title_in_sections files 0 f hf
  refine ⟨n, ?_⟩
  rw [process_excel_files_eq]
  simp only [List.mem_cons]
  exact Or.inr (Or.inr (Or.inr (Or.inr hn)))

/-- C8: `split_dataframe` returns parts of at most 7
(`max_columns_per_table`) columns each, every part except possibly the
last having exactly 7; concatenating the parts' column lists left to right
restores the original columns; and a frame of at most 7 columns comes back
as the one-element list [df]. -/
theorem claim8_split_dataframe (df : DataFrame) :
    (∀ part ∈ split_dataframe df, part.columns.length ≤ max_columns_per_table)
    ∧ (∀ j, j + 1 < (split_dataframe df).length →
        ∀ (hj : j < (split_dataframe df).length),
          ((split_dataframe df).get ⟨j, hj⟩).columns.length = 7)
    ∧ ((split_dataframe df).map DataFrame.columns).flatten = df.columns
    ∧ (df.columns.length ≤ max_columns_per_table → split_dataframe df = [df]) := by
  by_cases h : df.columns.length > max_columns_per_table
  · have hsplit : split_dataframe df =
        (pyRange0 df.columns.length 7).map fun i => df.ilocCols i (i + 7) := by
      rw [split_dataframe, if_pos h]
      rfl
    have hcols : ∀ i, (df.ilocCols i (i + 7)).columns = (df.columns.drop i).take 7 := by
      intro i
      simp [DataFrame.ilocCols, Nat.add_sub_cancel_left]
    refine ⟨?_, ?_, ?_, ?_⟩
    · intro part hpart
      rw [hsplit] at hpart
      obtain ⟨i, _, rfl⟩ := List.mem_map.mp hpart
      rw [hcols]
      simp only [List.length_take, max_columns_per_table]
      omega
    · intro j hj1 hj
      simp only [List.get_eq_getElem]
      rw [List.getElem_of_eq hsplit hj]
      simp only [List.getElem_map, pyRange0, List.getElem_range]
      rw [hcols]
      rw [hsplit] at hj1
      have hlen : ((pyRange0 df.columns.length 7).map
          fun i => df.ilocCols i (i + 7)).length = (df.columns.length + 6) / 7 := by
        simp [pyRange0]
      rw [hlen] at hj1
      have h7 : (j + 1) * 7 ≤ df.columns.length := by omega
      have := chunk_take_length_exact df.columns j h7
      simpa using this
    · rw [hsplit, List.map_map]
      have : (DataFrame.columns ∘ fun i => df.ilocCols i (i + 7)) =
          fun i => (df.columns.drop i).take 7 := by
        funext i
        exact hcols i
      rw [this]
      exact pyRange0_chunks_flatten df.columns
    · intro hle
      simp only [max_columns_per_table] at h hle
      omega
  · have hsplit : split_dataframe df = [df] := by rw [split_dataframe, if_neg h]
    push_neg at h
    refine ⟨?_, ?_, ?_, fun _ => hsplit⟩
    · intro part hpart
      rw [hsplit] at hpart
      simp only [List.mem_singleton] at hpart
      subst hpart
      exact h
    · intro j hj1 hj
      rw [hsplit] at hj1
      simp at hj1
    · rw [hsplit]
      simp

/-- C9: the widths `process_dataframe` returns with the default maximal
width (landscape letter width minus 60, i.e. 732) sum to at most that
width; each pre-scaling width is the clamp of 7 times the longest cell
string of its column into [50, 200]; scaling multiplies every clamped
width by max_width over their total exactly when the total exceeds
max_width, and that division only happens with a positive total. -/
theorem claim9_process_dataframe_widths (df : DataFrame) :
    ((process_dataframe df default_max_width).2.sum ≤ default_max_width)
    ∧ (∀ w ∈ clamped_col_widths df, min_col_width ≤ w ∧ w ≤ max_col_width)
    ∧ ((process_dataframe df default_max_width).2 =
        if (clamped_col_widths df).sum > default_max_width then
          (clamped_col_widths df).map
            fun w => w * (default_max_width / (clamped_col_widths df).sum)
        else clamped_col_widths df)
    ∧ ((clamped_col_widths df).sum > default_max_width → 0 < (clamped_col_widths df).sum) := by
  have hpos : (0 : ℚ) < default_max_width := by
    norm_num [default_max_width, landscape_letter_width]
  have hshape : (process_dataframe df default_max_width).2 =
      if (clamped_col_widths df).sum > default_max_width then
        (clamped_col_widths df).map
          fun w => w * (default_max_width / (clamped_col_widths df).sum)
      else clamped_col_widths df := by
    rw [process_dataframe]
    by_cases hgt : (clamped_col_widths df).sum > default_max_width
    · rw [if_pos hgt, if_pos hgt]
    · rw [if_neg hgt, if_neg hgt]
  refine ⟨?_, ?_, hshape, fun hgt => lt_trans hpos hgt⟩
  · rw [hshape]
    by_cases hgt : (clamped_col_widths df).sum > default_max_width
    · rw [if_pos hgt]
      have hne : (clamped_col_widths df).sum ≠ 0 := ne_of_gt (lt_trans hpos hgt)
      have hsum := List.sum_map_mul_right (clamped_col_widths df) id
        (default_max_width / (clamped_col_widths df).sum)
      simp only [id] at hsum
      rw [hsum, List.map_id, mul_comm, div_mul_cancel₀ _ hne]
    · rw [if_neg hgt]
      exact le_of_not_lt hgt
  · intro w hw
    simp only [clamped_col_widths, List.mem_map] at hw
    obtain ⟨col, _, rfl⟩ := hw
    refine ⟨le_max_left _ _, max_le ?_ (min_le_left _ _)⟩
    norm_num [min_col_width, max_col_width]

/-- C10: with a directory listing containing no name ending in .xlsx, .xls
or .xlsm, `batch_excel_to_pdf` returns the "No Excel files found" early
exit — no converter is constructed and nothing is written; otherwise it
hands exactly the files with those suffixes (joined onto the directory, in
listing order) to the converter. -/
theorem claim10_batch_filter (dir out : String) (listing : List String) :
    (batch_excel_to_pdf dir listing out =
        BatchResult.noFiles ("No Excel files found in " ++ dir)
      ↔ ∀ f ∈ listing, isExcelName f = false)
    ∧ ((∃ f ∈ listing, isExcelName f = true) →
        batch_excel_to_pdf dir listing out =
          BatchResult.processed ((listing.filter isExcelName).map (path_join dir)) out) := by
  have hfil : (listing.filter isExcelName) = [] ↔ ∀ f ∈ listing, isExcelName f = false := by
    rw [List.filter_eq_nil_iff]
    constructor
    · intro h f hf
      have := h f hf
      simpa using this
    · intro h f hf
      simp [h f hf]
  by_cases hnil : listing.filter isExcelName = []
  · have hbatch : batch_excel_to_pdf dir listing out =
        BatchResult.noFiles ("No Excel files found in " ++ dir) := by
      rw [batch_excel_to_pdf]
      simp [hnil]
    refine ⟨⟨fun _ => hfil.mp hnil, fun _ => hbatch⟩, ?_⟩
    rintro ⟨f, hf, hx⟩
    rw [hfil.mp hnil f hf] at hx
    exact absurd hx (by decide)
  · have hbatch : batch_excel_to_pdf dir listing out =
        BatchResult.processed ((listing.filter isExcelName).map (path_join dir)) out := by
      rw [batch_excel_to_pdf]
      have hne : ((listing.filter isExcelName).map (path_join dir)).isEmpty = false := by
        rw [Bool.eq_false_iff]
        intro hx
        exact hnil (List.map_eq_nil_iff.mp (List.isEmpty_iff.mp hx))
      simp [hne]
    refine ⟨⟨fun hcontra => ?_, fun h => absurd (hfil.mpr h) hnil⟩, fun _ => hbatch⟩
    rw [hbatch] at hcontra
    exact absurd hcontra (by simp)

end ExcelToPDF
